import Mathlib

/-!
Verification development for the BeamNGpy simulator-side communication layer.

The definitions below are a shallow embedding of the Lua sources:

* namespace `RCom` models `utils/researchCommunication.lua`
  (`M.sendMessage`, `M.receive`, `M.sendACK`, `M.sendBNGError`,
  `M.sendBNGValueError`) together with the byte-level behaviour of
  luasocket's `receive(n)` call (an internal loop that accumulates arriving
  chunks until `n` bytes are buffered or the timeout window closes, in which
  case the bytes read so far are returned separately and this caller drops
  them);
* namespace `MP` is a small MessagePack codec (fixmap / fixstr / positive
  fixint / bool wire formats) used to instantiate the serializer-parametric
  framing theorems on a genuine MessagePack encoding;
* namespace `GE` models the dispatch loop and the blocking-operation state
  machine of `src/beamngpy/lua/researchGE.lua` (`onPreRender`,
  `checkMessages` — which researchGE pulls in from researchCommunication —
  the `block`/`stopBlocking` slot, and the handlers and asynchronous hooks
  relevant to scenario loading, stepping and vehicle connections);
* namespace `VE` models `src/beamngpy/lua/researchVE.lua`'s
  `startConnection`.

Machine integers do not occur: Lua numbers holding byte values and lengths
are modelled as `Nat`, the step counter (which can go negative) as `Int`.
Sockets are identified by `Nat` ids; engine side effects are recorded in an
explicit effect list.
-/

namespace RCom

/-! ### Decimal digits (the `string.format` / `tonumber` pair)

The Lua sender formats the payload length with `string.format('%016d', n)`:
the decimal digits of `n`, left padded with `'0'` to width 16, as ASCII
bytes.  The receiver recovers the value with `tonumber` on the 16 received
bytes.  We model the decimal representation from first principles with a
fuel-based digit function (fuel `n` is always sufficient since the argument
shrinks by a factor of 10 each step). -/

/-- Little-endian decimal digits of `n`, with explicit fuel. -/
def digitsRevAux : Nat → Nat → List Nat
  | 0, _ => []
  | fuel + 1, n => if n = 0 then [] else n % 10 :: digitsRevAux fuel (n / 10)

/-- Little-endian decimal digits of `n` (empty for `n = 0`). -/
def digitsRev (n : Nat) : List Nat := digitsRevAux n n

/-- Value of a little-endian decimal digit list. -/
def ofDigitsRev : List Nat → Nat
  | [] => 0
  | d :: ds => d + 10 * ofDigitsRev ds

/-- Header produced by `string.format('%016d', n)`, as ASCII byte values:
digits of `n` zero-padded to width 16 (wider only if `n ≥ 10^16`, exactly as
`%016d` behaves). -/
def headerBytes (n : Nat) : List Nat :=
  ((digitsRev n ++ List.replicate (16 - (digitsRev n).length) 0).reverse).map (· + 48)

/-- Numeric value denoted by a decimal ASCII header (the `tonumber` result
on an all-digit string). -/
def headerValue (bs : List Nat) : Nat :=
  ofDigitsRev ((bs.map (· - 48)).reverse)

/-- Model of `tonumber` restricted to the strings this protocol produces:
succeeds exactly on all-decimal-digit headers.  (The Lua `tonumber` accepts
further formats — signs, spaces, hex — that no `%016d` header exhibits.) -/
def parseHeader (bs : List Nat) : Option Nat :=
  if bs.length = 16 ∧ bs.all (fun b => 48 ≤ b && b ≤ 57) then
    some (headerValue bs)
  else none

/-- Byte stream written by `M.sendMessage` for an already-serialized payload:
the two `skt:send` calls emit the 16-wide decimal length header followed by
the payload bytes. -/
def sendMessageBytes (payload : List Nat) : List Nat :=
  headerBytes payload.length ++ payload

/-! ### luasocket `receive(n)` and `M.receive`

luasocket's `skt:receive(n)` loops over low-level reads until `n` bytes are
buffered or the timeout window closes.  We model one call's window as the
list of chunks that arrive during it: `recvLoop n buf sched` consumes chunks
from `sched` into the buffer `buf` until `n` bytes are available (returning
the `n` bytes and leaving the surplus buffered) or the schedule is exhausted
(the timeout: luasocket then hands the partially read bytes to the caller as
a third result, which `M.receive` discards — so the buffered bytes are
gone). -/

/-- One `skt:receive(n)` call: result bytes (or `none` on timeout), the
remaining buffered bytes and the remaining arrival schedule. -/
def recvLoop (n : Nat) : List Nat → List (List Nat) → Option (List Nat) × List Nat × List (List Nat)
  | buf, [] =>
    if n ≤ buf.length then (some (buf.take n), buf.drop n, []) else (none, [], [])
  | buf, c :: rest =>
    if n ≤ buf.length then (some (buf.take n), buf.drop n, c :: rest)
    else recvLoop n (buf ++ c) rest

/-- Model of `M.receive`: read 16 header bytes, `tonumber` them, then read
that many payload bytes.  Any failed read (timeout before the frame
completes) is returned as `none`, mirroring the `return nil, err` paths. -/
def receive (buf : List Nat) (sched : List (List Nat)) :
    Option (List Nat) × List Nat × List (List Nat) :=
  match recvLoop 16 buf sched with
  | (none, b, s) => (none, b, s)
  | (some hdr, b, s) =>
    match parseHeader hdr with
    | none => (none, b, s)
    | some n => recvLoop n b s

/-- Full decode path of the receiver: `M.receive` followed by `mp.unpack`
(the deserializer is a parameter, as the MessagePack library is an external
dependency of the Lua code). -/
def decodeMessage {Msg : Type} (unpack : List Nat → Option Msg)
    (buf : List Nat) (sched : List (List Nat)) : Option Msg :=
  ((receive buf sched).1).bind unpack

end RCom

namespace Wire

/-- Values occurring in the structured messages this layer builds: Lua
strings, numbers used as integers, and booleans. -/
inductive MsgV where
  | str (s : String)
  | int (n : Int)
  | boolean (b : Bool)
  deriving Repr, DecidableEq

/-- A Lua message table, as its list of key/value fields. -/
abbrev Message := List (String × MsgV)

/-- Field access `message['k']`. -/
def mlookup (k : String) : Message → Option MsgV
  | [] => none
  | (k', v) :: rest => if k = k' then some v else mlookup k rest

/-- Message built by `M.sendACK`: `{type = type}`. -/
def ackMsg (t : String) : Message := [("type", MsgV.str t)]

/-- Message built by `M.sendBNGError`: `{bngError = message}`. -/
def bngErrorMsg (text : String) : Message := [("bngError", MsgV.str text)]

/-- Message built by `M.sendBNGValueError`: `{bngValueError = message}`. -/
def bngValueErrorMsg (text : String) : Message := [("bngValueError", MsgV.str text)]

end Wire

namespace MP

/-! ### A concrete MessagePack codec

The Lua layer serializes with the vendored lua-MessagePack library, an
external dependency.  To instantiate the serializer-parametric framing
theorems on a genuine MessagePack wire encoding, we implement the fixmap,
fixstr, positive-fixint and bool formats of the MessagePack specification
(string-keyed maps of small scalars — the shape of the control messages). -/

/-- MessagePack values in the modelled subset. -/
inductive MPVal where
  | pstr (bs : List Nat)
  | pint (n : Nat)
  | pbool (b : Bool)
  deriving Repr, DecidableEq

/-- A string-keyed MessagePack map, keys as raw byte strings. -/
abbrev MPMsg := List (List Nat × MPVal)

/-- Encode one value (fixstr / positive fixint / bool formats). -/
def packVal : MPVal → Option (List Nat)
  | .pstr bs => if bs.length < 32 ∧ bs.all (· < 256) then some ((0xA0 + bs.length) :: bs) else none
  | .pint n => if n < 128 then some [n] else none
  | .pbool b => some [if b then 0xC3 else 0xC2]

/-- Encode a map key (fixstr format). -/
def packKey (k : List Nat) : Option (List Nat) := packVal (.pstr k)

/-- Encode the key/value entries of a map. -/
def packEntries : MPMsg → Option (List Nat)
  | [] => some []
  | (k, v) :: rest => do
    let kb ← packKey k
    let vb ← packVal v
    let rb ← packEntries rest
    pure (kb ++ vb ++ rb)

/-- Encode a message as a fixmap. -/
def mpPack (m : MPMsg) : Option (List Nat) :=
  if m.length < 16 then (packEntries m).map (fun es => (0x80 + m.length) :: es) else none

/-- Decode one fixstr, returning the string bytes and the remaining input. -/
def parseStr : List Nat → Option (List Nat × List Nat)
  | [] => none
  | b :: rest =>
    if 0xA0 ≤ b ∧ b < 0xC0 then
      if b - 0xA0 ≤ rest.length then some (rest.take (b - 0xA0), rest.drop (b - 0xA0))
      else none
    else none

/-- Decode one value of the modelled subset. -/
def parseVal : List Nat → Option (MPVal × List Nat)
  | [] => none
  | b :: rest =>
    if b < 0x80 then some (.pint b, rest)
    else if 0xA0 ≤ b ∧ b < 0xC0 then
      (parseStr (b :: rest)).map (fun x => (MPVal.pstr x.1, x.2))
    else if b = 0xC2 then some (.pbool false, rest)
    else if b = 0xC3 then some (.pbool true, rest)
    else none

/-- Decode `c` key/value entries. -/
def parseEntries : Nat → List Nat → Option (MPMsg × List Nat)
  | 0, bs => some ([], bs)
  | c + 1, bs => do
    let kr ← parseStr bs
    let vr ← parseVal kr.2
    let mr ← parseEntries c vr.2
    pure ((kr.1, vr.1) :: mr.1, mr.2)

/-- Decode a fixmap message, requiring the whole input to be consumed. -/
def mpUnpack (bs : List Nat) : Option MPMsg :=
  match bs with
  | [] => none
  | b :: rest =>
    if 0x80 ≤ b ∧ b < 0x90 then
      match parseEntries (b - 0x80) rest with
      | some (m, []) => some m
      | _ => none
    else none

/-- The message `{type = 'Hello'}` in the byte-string representation. -/
def mpHello : MPMsg := [([116, 121, 112, 101], .pstr [72, 101, 108, 108, 111])]

/-- MessagePack bytes of `mpHello`: fixmap(1), fixstr(4) "type",
fixstr(5) "Hello". -/
def mpHelloBytes : List Nat :=
  [129, 164, 116, 121, 112, 101, 165, 72, 101, 108, 108, 111]

end MP

namespace GE

open Wire

/-- Closures the source stores in `frameDelayFunc`: the delayed
`RelativeCamSet` ACK of `handleSetRelativeCam`, and the delayed instance
annotation send of `sensors.Camera` (whose `SensorData` payload fields are
elided). -/
inductive FrameDelayFunc where
  | relativeCamSet (skt : Nat)
  | cameraInstance (skt : Nat)
  deriving Repr, DecidableEq

/-- Module-level mutable state of researchGE.lua used by the modelled
handlers and hooks (`blocking`, `waiting`, `stepsLeft`, `quitRequested`,
`frameDelayTimer`/`frameDelayFunc`, `conSleep`, the server socket and the
client set). -/
structure GEState where
  blocking : Option String
  waiting : Option Nat
  stepsLeft : Int
  quitRequested : Bool
  frameDelayTimer : Int
  frameDelayFunc : Option FrameDelayFunc
  conSleep : Int
  serverOpen : Bool
  clients : List Nat
  deriving Repr, DecidableEq

/-- External collaborators of researchGE.lua, as oracles: whether
`scenariosLoader.startByPath` finds the scenario, whether
`next(core_gamestate.state)` is nil, the scene-tree name of a vehicle id
(`none` when `scenetree.findObjectById` returns nil), whether
`scenarioHelper.getVehicleByName` finds the vehicle, and the clients a
`checkForClients` call accepts. -/
structure Env where
  scenarioExists : String → Bool
  gamestateEmpty : Bool
  vehName : Nat → Option String
  vehicleExists : String → Bool
  newClients : List Nat

/-- Observable side effects of one entry into the modelled code: socket
sends, the `extensions.hook('onSocketMessage', ...)` pass-through, log
lines (their dynamic text elided), vehicle `queueLuaCommand` calls,
`be:physicsStep`, other engine calls, and `shutdown`. -/
inductive Effect where
  | send (skt : Nat) (m : Message)
  | hookSocketMessage (skt : Nat) (m : Message)
  | log (tag : String)
  | queueLua (vid : String) (cmd : String)
  | physicsStep (n : Int)
  | engine (call : String)
  | shutdown
  deriving Repr, DecidableEq

/-- Guarded send used for the ACKs to the waiting socket: `M.sendMessage`
returns silently when the socket is nil. -/
def sendTo (w : Option Nat) (m : Message) : List Effect :=
  match w with
  | none => []
  | some k => [.send k m]

/-- The local function `block(reason, skt)`. -/
def block (reason : String) (skt : Nat) (s : GEState) : GEState :=
  { s with blocking := some reason, waiting := some skt }

/-- The local function `stopBlocking()`. -/
def stopBlocking (s : GEState) : GEState :=
  { s with blocking := none, waiting := none }

/-- Result of one handler invocation: updated state, effects, and the Lua
return value, true meaning the handler blocked (`checkMessages` then makes
`onPreRender`'s pump loop stop).  `none` models a Lua runtime error
escaping the handler. -/
abbrev HandlerResult := Option (GEState × List Effect × Bool)

/-- Handler for `Hello`: reply with the protocol version. -/
def handleHello (_env : Env) (skt : Nat) (_m : Message) (s : GEState) : HandlerResult :=
  some (s, [.send skt [("type", MsgV.str "Hello"), ("protocolVersion", MsgV.str "v1.19")]],
    false)

/-- Handler for `Quit`: ACK, then request shutdown and set the blocking flag
directly (note: `waiting` is not assigned by this handler). -/
def handleQuit (_env : Env) (skt : Nat) (_m : Message) (s : GEState) : HandlerResult :=
  some ({ s with quitRequested := true, blocking := some "quit" },
    [.send skt (ackMsg "Quit")], false)

/-- Handler for `LoadScenario`: when `scenariosLoader.startByPath` finds the
path, enter the blocking slot with reason `loadScenario` and send nothing;
otherwise reply with a `bngValueError`.  Returns true in both branches.
(A message whose `path` field is not a string makes the Lua code raise when
it concatenates the value into its log line; modelled as a runtime error.) -/
def handleLoadScenario (env : Env) (skt : Nat) (m : Message) (s : GEState) : HandlerResult :=
  match mlookup "path" m with
  | some (.str p) =>
    if env.scenarioExists p then
      some (block "loadScenario" skt s, [.log "loading scenario"], true)
    else
      some (s, [.send skt (bngValueErrorMsg ("Scenario not found: " ++ p))], true)
  | _ => none

/-- Handler for `Step`: store the requested count in `stepsLeft`, enter the
blocking slot with reason `step`, and start the physics steps.  (A missing
or non-integer `count` makes the later Lua arithmetic raise; modelled as a
runtime error.) -/
def handleStep (_env : Env) (skt : Nat) (m : Message) (s : GEState) : HandlerResult :=
  match mlookup "count" m with
  | some (.int c) =>
    some (block "step" skt { s with stepsLeft := c }, [.physicsStep c], true)
  | _ => none

/-- Handler for `StartVehicleConnection`: queue the researchVE extension
load on the named vehicle, enter the blocking slot with reason
`vehicleConnection`, then queue `researchVE.startConnection()`.  Sends
nothing itself.  (An unknown vehicle makes `queueLuaCommand` raise on nil;
modelled as a runtime error.  The optional `exts` extension list only adds
further `queueLuaCommand` effects and is elided.) -/
def handleStartVehicleConnection (env : Env) (skt : Nat) (m : Message) (s : GEState) :
    HandlerResult :=
  match mlookup "vid" m with
  | some (.str v) =>
    if env.vehicleExists v then
      some (block "vehicleConnection" skt s,
        [.queueLua v "extensions.load('researchVE')",
         .queueLua v "researchVE.startConnection()"], true)
    else none
  | _ => none

/-- Handler for `Pause`: stop the physics and ACK. -/
def handlePause (_env : Env) (skt : Nat) (_m : Message) (s : GEState) : HandlerResult :=
  some (s, [.engine "setPhysicsRunning false", .send skt (ackMsg "Paused")], false)

/-- The `E['handle' .. msgType]` dispatch, restricted to the handlers
modelled here; for every other type string the table lookup yields nil and
`checkMessages` falls through to the extension hook.  (researchGE.lua
registers many further handlers — teleports, sensors, debug drawing and so
on — every one of which replies immediately with its own ACK or result
message; none sends the `MapLoaded` ACK or a `StartVehicleConnection`
reply, so restricting the table does not affect the claims proved below.) -/
def handlerFor : String → Option (Env → Nat → Message → GEState → HandlerResult)
  | "Hello" => some handleHello
  | "Quit" => some handleQuit
  | "LoadScenario" => some handleLoadScenario
  | "Step" => some handleStep
  | "StartVehicleConnection" => some handleStartVehicleConnection
  | "Pause" => some handlePause
  | _ => none

/-- Client set removal (`clients:remove(skt)`): membership effect of the
LuaSocket sample set. -/
def removeClient (skt : Nat) (cs : List Nat) : List Nat :=
  cs.filter (fun c => c ≠ skt)

/-- One readable socket in a `checkMessages` pass: its id and the decoded
message, `none` standing for an `M.receive` error (which removes the
client). -/
abbrev PassItem := Nat × Option Message

/-- The body of `M.checkMessages`: iterate over the readable sockets,
decode, and dispatch.  A message without a `type` field is logged and
skipped; a type without a registered handler goes to the
`onSocketMessage` extension hook; a read error removes the client.  The
returned flag is the `ret` variable: false as soon as some handler
returned true.  A `type` field holding a boolean would make the Lua
concatenation `'handle' .. msgType` raise (modelled as `none`); a numeric
`type` concatenates fine and finds no handler. -/
def checkItems (env : Env) : List PassItem → GEState → Option (GEState × List Effect × Bool)
  | [], s => some (s, [], true)
  | (skt, none) :: rest, s =>
    (checkItems env rest { s with clients := removeClient skt s.clients }).map
      (fun r => (r.1, Effect.log "socket read error" :: r.2.1, r.2.2))
  | (skt, some m) :: rest, s =>
    match mlookup "type" m with
    | none =>
      (checkItems env rest s).map
        (fun r => (r.1, Effect.log "message without type" :: r.2.1, r.2.2))
    | some (.str t) =>
      match handlerFor t with
      | none =>
        (checkItems env rest s).map
          (fun r => (r.1, Effect.hookSocketMessage skt m :: r.2.1, r.2.2))
      | some h =>
        match h env skt m s with
        | none => none
        | some (s', eff, blocked) =>
          (checkItems env rest s').map
            (fun r => (r.1, eff ++ r.2.1, if blocked then false else r.2.2))
    | some (.int _) =>
      (checkItems env rest s).map
        (fun r => (r.1, Effect.hookSocketMessage skt m :: r.2.1, r.2.2))
    | some (.boolean _) => none

/-- `M.checkMessages` proper: the final result is `ret` when some socket
was readable and false otherwise. -/
def checkMessages (env : Env) (pass : List PassItem) (s : GEState) :
    Option (GEState × List Effect × Bool) :=
  (checkItems env pass s).map
    (fun r => (r.1, r.2.1, if pass.isEmpty then false else r.2.2))

/-- The pump `while rcom.checkMessages(M, clients) do end`: each iteration
consumes one select pass; the loop stops when `checkMessages` returns
false (no readable socket, or some handler blocked). -/
def pumpLoop (env : Env) : List (List PassItem) → GEState → Option (GEState × List Effect)
  | [], s => some (s, [])
  | p :: rest, s =>
    match checkMessages env p s with
    | none => none
    | some (s', eff, cont) =>
      if cont then
        (pumpLoop env rest s').map (fun r => (r.1, eff ++ r.2))
      else some (s', eff)

/-- Effects of running a stored `frameDelayFunc` closure. -/
def fireDelay : Option FrameDelayFunc → List Effect
  | none => []
  | some (.relativeCamSet skt) => [.send skt (ackMsg "RelativeCamSet")]
  | some (.cameraInstance skt) => [.send skt [("type", MsgV.str "SensorData")]]

/-- The frame-delay prelude of `onPreRender`: while the timer is above zero
it is decremented, the stored closure firing when it reaches zero; a still
positive timer makes `onPreRender` return early (third component false). -/
def preRenderDelay (s : GEState) : GEState × List Effect × Bool :=
  if s.frameDelayTimer > 0 then
    if s.frameDelayTimer - 1 = 0 then
      ({ s with frameDelayTimer := 0, frameDelayFunc := none }, fireDelay s.frameDelayFunc, true)
    else ({ s with frameDelayTimer := s.frameDelayTimer - 1 }, [], false)
  else (s, [], true)

/-- The blocking section of `onPreRender`: with an occupied slot, either
the operation completes right here (`returnMainMenu` with an empty game
state, or `step` whose counter reaches zero) and control falls through to
the `::continue::` label, or `onPreRender` returns before pumping any
client message (third component false). -/
def preRenderBlocking (env : Env) (s : GEState) : GEState × List Effect × Bool :=
  match s.blocking with
  | none => (s, [], true)
  | some r =>
    if r = "returnMainMenu" ∧ env.gamestateEmpty = true then
      (stopBlocking s, sendTo s.waiting (ackMsg "ScenarioStopped"), true)
    else if r = "step" then
      if s.stepsLeft - 1 = 0 then
        (stopBlocking { s with stepsLeft := s.stepsLeft - 1 },
          sendTo s.waiting (ackMsg "Stepped"), true)
      else ({ s with stepsLeft := s.stepsLeft - 1 }, [], false)
    else (s, [], false)

/-- The connection-accept section guarded by `conSleep`. -/
def acceptStep (env : Env) (dt : Int) (s : GEState) : GEState :=
  if s.conSleep ≤ 0 then
    { s with conSleep := 1, clients := s.clients ++ env.newClients.filter (· ∉ s.clients) }
  else { s with conSleep := s.conSleep - dt }

/-- `M.onPreRender`: shutdown on a pending quit, frame-delay handling, the
blocking-slot check, then — only on the fall-through paths — client
accept and the message pump.  `passes` supplies the readable sockets of
the successive `checkMessages` calls of this frame. -/
def onPreRender (env : Env) (dt : Int) (passes : List (List PassItem)) (s : GEState) :
    Option (GEState × List Effect) :=
  if s.quitRequested then some (s, [.shutdown])
  else
    match preRenderDelay s with
    | (s1, eff1, false) => some (s1, eff1)
    | (s1, eff1, true) =>
      match preRenderBlocking env s1 with
      | (s2, eff2, false) => some (s2, eff1 ++ eff2)
      | (s2, eff2, true) =>
        if s2.serverOpen = false then some (s2, eff1 ++ eff2)
        else
          match pumpLoop env passes (acceptStep env dt s2) with
          | none => none
          | some (s4, eff4) => some (s4, eff1 ++ eff2 ++ eff4)

/-- `M.onScenarioUIReady`: the `MapLoaded` ACK goes to the waiting socket
exactly when the UI reaches state `start` while the blocking reason is
`loadScenario`. -/
def onScenarioUIReady (state : String) (s : GEState) : GEState × List Effect :=
  if state = "start" ∧ s.blocking = some "loadScenario" then
    (stopBlocking s, sendTo s.waiting (ackMsg "MapLoaded"))
  else (s, [])

/-- `M.onCountdownEnded`. -/
def onCountdownEnded (s : GEState) : GEState × List Effect :=
  if s.blocking = some "startScenario" then
    (stopBlocking s, sendTo s.waiting (ackMsg "ScenarioStarted"))
  else (s, [])

/-- Name under which `M.onVehicleConnectionReady` reports a vehicle: the
scene-tree object's name, falling back to the id's string form when the
object is missing or its name is empty. -/
def resolveVehicleName (env : Env) (vehicleID : Nat) : String :=
  match env.vehName vehicleID with
  | some nm => if nm = "" then toString vehicleID else nm
  | none => toString vehicleID

/-- Reply sent for a completed vehicle-connection handshake:
`{type = 'StartVehicleConnection', vid = name, result = port}`. -/
def svcMsg (name : String) (port : Nat) : Message :=
  [("type", MsgV.str "StartVehicleConnection"), ("vid", MsgV.str name),
   ("result", MsgV.int port)]

/-- `M.onVehicleConnectionReady`: when the blocking reason is
`vehicleConnection`, send the vehicle name and port to the waiting socket
and clear the slot. -/
def onVehicleConnectionReady (env : Env) (vehicleID port : Nat) (s : GEState) :
    GEState × List Effect :=
  if s.blocking = some "vehicleConnection" then
    (stopBlocking s, sendTo s.waiting (svcMsg (resolveVehicleName env vehicleID) port))
  else (s, [])

/-- Entry points by which the engine drives the modelled researchGE state:
the render callback with the frame's readable messages, and the
asynchronous completion hooks.  (The source's remaining hooks —
`onScenarioRestarted`, `onVehicleSpawned`, `onVehicleInfoReady` — follow
the same shape and send `ScenarioRestarted`, `VehicleSpawned` and
`GetCurrentVehicles` messages respectively, none of which is the
`MapLoaded` ACK or a `StartVehicleConnection` reply.) -/
inductive GEEvent where
  | preRender (dt : Int) (passes : List (List PassItem))
  | scenarioUIReady (state : String)
  | countdownEnded
  | vehicleConnectionReady (vehicleID : Nat) (port : Nat)
  deriving Repr

/-- One engine-driven step of the researchGE module. -/
def geStep (env : Env) (s : GEState) : GEEvent → Option (GEState × List Effect)
  | .preRender dt passes => onPreRender env dt passes s
  | .scenarioUIReady st => some (onScenarioUIReady st s)
  | .countdownEnded => some (onCountdownEnded s)
  | .vehicleConnectionReady vehicleID port => some (onVehicleConnectionReady env vehicleID port s)

/-- Iterated `onPreRender` frames with no inbound messages, accumulating
effects. -/
def iterPreRender (env : Env) (dt : Int) : Nat → GEState → Option (GEState × List Effect)
  | 0, s => some (s, [])
  | k + 1, s =>
    match onPreRender env dt [] s with
    | none => none
    | some (s', eff) =>
      (iterPreRender env dt k s').map (fun r => (r.1, eff ++ r.2))

/-! ### Which messages the pump and the render callback can send

The completion ACKs `MapLoaded` and the `StartVehicleConnection` reply are
sent by no handler and by no `onPreRender` path: the following lemmas
classify every send the dispatch loop can perform. -/

/-- Messages a modelled message handler can send. -/
def pumpMsgOK (m : Message) : Prop :=
  m = [("type", MsgV.str "Hello"), ("protocolVersion", MsgV.str "v1.19")] ∨
  m = ackMsg "Quit" ∨ m = ackMsg "Paused" ∨ ∃ t, m = bngValueErrorMsg t

/-- Messages `onPreRender` can send: handler messages plus the
`ScenarioStopped` and `Stepped` completion ACKs and the two delayed
closure sends. -/
def preRenderMsgOK (m : Message) : Prop :=
  pumpMsgOK m ∨ m = ackMsg "ScenarioStopped" ∨ m = ackMsg "Stepped" ∨
  m = ackMsg "RelativeCamSet" ∨ m = [("type", MsgV.str "SensorData")]

end GE

namespace VE

/-- Module-level state of researchVE.lua relevant to `startConnection`:
the listening server socket (with the port the OS assigned it). -/
structure VEState where
  serverPort : Option Nat
  deriving Repr, DecidableEq

/-- External inputs of researchVE.lua: the vehicle object's id and the
ephemeral port the OS assigns when a socket binds port 0. -/
structure VEEnv where
  objID : Nat
  osPort : Nat

/-- Effects of the vehicle-side script. -/
inductive VEEffect where
  | hookVehicleConnectionReady (vehicleID : Nat) (port : Nat)
  deriving Repr, DecidableEq

/-- `M.startConnection`: open the listening server on port 0 if not yet
open (keeping the previously assigned port otherwise), then report the
vehicle id and the listening port to the game engine through the
`onVehicleConnectionReady` hook. -/
def startConnection (env : VEEnv) (st : VEState) : VEState × List VEEffect :=
  match st.serverPort with
  | none =>
    ({ serverPort := some env.osPort },
     [.hookVehicleConnectionReady env.objID env.osPort])
  | some p =>
    (st, [.hookVehicleConnectionReady env.objID p])

end VE

/-! ### Concrete instances used by the witnesses and counterexamples -/

/-- An environment in which the scenario path and the vehicle both exist,
the game state is non-empty and no new client is pending. -/
def env0 : GE.Env :=
  { scenarioExists := fun _ => true, gamestateEmpty := false,
    vehName := fun _ => some "ego", vehicleExists := fun _ => true, newClients := [] }

/-- An idle researchGE state with two connected clients. -/
def ge0 : GE.GEState :=
  { blocking := none, waiting := none, stepsLeft := 0, quitRequested := false,
    frameDelayTimer := -1, frameDelayFunc := none, conSleep := 1, serverOpen := true,
    clients := [1, 2] }

/-- A `LoadScenario` request. -/
def loadMsg : Wire.Message :=
  [("type", Wire.MsgV.str "LoadScenario"),
   ("path", Wire.MsgV.str "levels/west/scenarios/test.json")]

/-- A `Step` request for five physics steps. -/
def stepMsg : Wire.Message :=
  [("type", Wire.MsgV.str "Step"), ("count", Wire.MsgV.int 5)]

/-- A `Step` request for three physics steps. -/
def stepMsg3 : Wire.Message :=
  [("type", Wire.MsgV.str "Step"), ("count", Wire.MsgV.int 3)]

/-- A `Step` request with count zero. -/
def stepMsg0 : Wire.Message :=
  [("type", Wire.MsgV.str "Step"), ("count", Wire.MsgV.int 0)]

/-- A `Hello` request. -/
def helloMsg : Wire.Message := [("type", Wire.MsgV.str "Hello")]

/-- The state of a client blocked on a scenario load (socket 1 waiting). -/
def sLoadBlocked : GE.GEState :=
  { ge0 with blocking := some "loadScenario", waiting := some 1 }

/-- The state of a client blocked on a vehicle connection (socket 1
waiting). -/
def sVehBlocked : GE.GEState :=
  { ge0 with blocking := some "vehicleConnection", waiting := some 1 }

namespace RCom

/-! ### Digit lemmas -/

theorem ofDigitsRev_digitsRevAux : ∀ (fuel n : Nat), n ≤ fuel →
    ofDigitsRev (digitsRevAux fuel n) = n := by
  intro fuel
  induction fuel with
  | zero => intro n hn; interval_cases n; simp [digitsRevAux, ofDigitsRev]
  | succ k ih =>
    intro n hn
    by_cases h0 : n = 0
    · simp [digitsRevAux, h0, ofDigitsRev]
    · have hdiv : n / 10 ≤ k := by
        have : n / 10 < n := Nat.div_lt_self (Nat.pos_of_ne_zero h0) (by norm_num)
        omega
      simp only [digitsRevAux, if_neg h0, ofDigitsRev, ih (n / 10) hdiv]
      omega

theorem ofDigitsRev_digitsRev (n : Nat) : ofDigitsRev (digitsRev n) = n :=
  ofDigitsRev_digitsRevAux n n le_rfl

theorem digitsRevAux_lt_ten : ∀ (fuel n : Nat), ∀ d ∈ digitsRevAux fuel n, d < 10 := by
  intro fuel
  induction fuel with
  | zero => intro n d hd; simp [digitsRevAux] at hd
  | succ k ih =>
    intro n d hd
    by_cases h0 : n = 0
    · simp [digitsRevAux, h0] at hd
    · simp only [digitsRevAux, if_neg h0, List.mem_cons] at hd
      rcases hd with h | h
      · subst h; exact Nat.mod_lt _ (by norm_num)
      · exact ih _ _ h

theorem digitsRevAux_length_le : ∀ (fuel n k : Nat), n ≤ fuel → n < 10 ^ k →
    (digitsRevAux fuel n).length ≤ k := by
  intro fuel
  induction fuel with
  | zero => intro n k _ _; interval_cases n; simp [digitsRevAux]
  | succ f ih =>
    intro n k hn hk
    by_cases h0 : n = 0
    · simp [digitsRevAux, h0]
    · have hkpos : k ≠ 0 := by
        rintro rfl; simp at hk; omega
      have hdivfuel : n / 10 ≤ f := by
        have : n / 10 < n := Nat.div_lt_self (Nat.pos_of_ne_zero h0) (by norm_num)
        omega
      have hdivpow : n / 10 < 10 ^ (k - 1) := by
        have hpow : 10 ^ (k - 1) * 10 = 10 ^ k := by
          conv_rhs => rw [show k = k - 1 + 1 by omega]
          rw [pow_succ]
        exact Nat.div_lt_of_lt_mul (by omega)
      have := ih (n / 10) (k - 1) hdivfuel hdivpow
      simp only [digitsRevAux, if_neg h0, List.length_cons]
      omega

theorem digitsRev_length_le {n k : Nat} (h : n < 10 ^ k) : (digitsRev n).length ≤ k :=
  digitsRevAux_length_le n n k le_rfl h

theorem ofDigitsRev_append_zeros (ds : List Nat) (m : Nat) :
    ofDigitsRev (ds ++ List.replicate m 0) = ofDigitsRev ds := by
  induction ds with
  | nil =>
    simp only [List.nil_append]
    induction m with
    | zero => rfl
    | succ j ihj => simp [List.replicate_succ, ofDigitsRev, ihj]
  | cons d ds ih => simp [ofDigitsRev, ih]

theorem headerBytes_length {n : Nat} (h : n < 10 ^ 16) : (headerBytes n).length = 16 := by
  have hlen := digitsRev_length_le h
  simp only [headerBytes, List.length_map, List.length_reverse, List.length_append,
    List.length_replicate]
  omega

theorem headerBytes_digits (n : Nat) : ∀ b ∈ headerBytes n, 48 ≤ b ∧ b ≤ 57 := by
  intro b hb
  simp only [headerBytes, List.mem_map, List.mem_reverse, List.mem_append,
    List.mem_replicate] at hb
  obtain ⟨d, hd, rfl⟩ := hb
  rcases hd with hd | hd
  · have := digitsRevAux_lt_ten n n d hd
    omega
  · omega

theorem headerValue_headerBytes (n : Nat) : headerValue (headerBytes n) = n := by
  have hmap : ((headerBytes n).map (· - 48)) =
      (digitsRev n ++ List.replicate (16 - (digitsRev n).length) 0).reverse := by
    simp only [headerBytes, List.map_map]
    rw [show ((fun b => b - 48) ∘ (· + 48)) = id from funext fun d => by simp, List.map_id]
  simp only [headerValue, hmap, List.reverse_reverse, ofDigitsRev_append_zeros,
    ofDigitsRev_digitsRev]

theorem parseHeader_headerBytes {n : Nat} (h : n < 10 ^ 16) :
    parseHeader (headerBytes n) = some n := by
  have hall : (headerBytes n).all (fun b => 48 ≤ b && b ≤ 57) = true := by
    rw [List.all_eq_true]
    intro b hb
    have := headerBytes_digits n b hb
    simp only [Bool.and_eq_true, decide_eq_true_eq]
    omega
  rw [parseHeader, if_pos ⟨headerBytes_length h, hall⟩, headerValue_headerBytes]

/-! ### recvLoop lemmas -/

theorem recvLoop_spec : ∀ (sched : List (List Nat)) (buf : List Nat) (n : Nat),
    n ≤ (buf ++ sched.flatten).length →
    ∃ b' s', recvLoop n buf sched = (some ((buf ++ sched.flatten).take n), b', s') ∧
      b' ++ s'.flatten = (buf ++ sched.flatten).drop n := by
  intro sched
  induction sched with
  | nil =>
    intro buf n hn
    simp only [List.flatten_nil, List.append_nil] at hn ⊢
    exact ⟨buf.drop n, [], by simp [recvLoop, hn]⟩
  | cons c rest ih =>
    intro buf n hn
    by_cases hbuf : n ≤ buf.length
    · refine ⟨buf.drop n, c :: rest, ?_, ?_⟩
      · simp [recvLoop, hbuf, List.take_append_of_le_length hbuf]
      · simp [List.drop_append_of_le_length hbuf]
    · have hstep : recvLoop n buf (c :: rest) = recvLoop n (buf ++ c) rest := by
        simp [recvLoop, hbuf]
      have hlen : n ≤ ((buf ++ c) ++ rest.flatten).length := by
        simpa [List.append_assoc] using hn
      obtain ⟨b', s', heq, hjoin⟩ := ih (buf ++ c) n hlen
      exact ⟨b', s', by rw [hstep, heq]; simp [List.append_assoc],
        by rw [hjoin]; simp [List.append_assoc]⟩

/-- Receiving a whole frame whose bytes arrive in arbitrary chunks (in
particular one byte per read attempt) yields exactly the payload, with no
unconsumed bytes, provided every byte arrives within the call's window. -/
theorem receive_frame (payload : List Nat) (sched : List (List Nat))
    (hsched : sched.flatten = sendMessageBytes payload)
    (hlen : payload.length < 10 ^ 16) :
    (receive [] sched).1 = some payload ∧ (receive [] sched).2.1 = [] ∧
      ((receive [] sched).2.2).flatten = [] := by
  have hflat : ([] : List Nat) ++ sched.flatten = headerBytes payload.length ++ payload := by
    simp [hsched, sendMessageBytes]
  have hhdrlen : (headerBytes payload.length).length = 16 := headerBytes_length hlen
  have h16 : 16 ≤ (([] : List Nat) ++ sched.flatten).length := by
    rw [hflat]; simp [hhdrlen]
  obtain ⟨b', s', heq, hjoin⟩ := recvLoop_spec sched [] 16 h16
  have htake : (([] : List Nat) ++ sched.flatten).take 16 = headerBytes payload.length := by
    rw [hflat, ← hhdrlen, List.take_left]
  have hdrop : (([] : List Nat) ++ sched.flatten).drop 16 = payload := by
    rw [hflat, ← hhdrlen, List.drop_left]
  rw [htake] at heq
  rw [hdrop] at hjoin
  have hrest : payload.length ≤ (b' ++ s'.flatten).length := by rw [hjoin]
  obtain ⟨b'', s'', heq2, hjoin2⟩ := recvLoop_spec s' b' payload.length hrest
  have htake2 : (b' ++ s'.flatten).take payload.length = payload := by
    rw [hjoin]; exact List.take_length payload
  have hdrop2 : (b' ++ s'.flatten).drop payload.length = [] := by
    rw [hjoin]; exact List.drop_length payload
  rw [htake2] at heq2
  rw [hdrop2] at hjoin2
  have hnil := List.append_eq_nil.mp hjoin2
  have hrecv : receive [] sched = (some payload, b'', s'') := by
    simp only [receive, heq, parseHeader_headerBytes hlen, heq2]
  rw [hrecv]
  exact ⟨rfl, hnil.1, hnil.2⟩

end RCom

/-- C1 — Frame round-trip: a message the MessagePack serializer encodes
(witnessed by `pack m = some p` with `unpack` recovering `m` from `p`),
sent with `M.sendMessage` (16-digit decimal length header followed by the
serialized payload), is recovered exactly by `M.receive` followed by
unpacking, whatever the message. -/
theorem claim1_frame_roundtrip {Msg : Type} (pack : Msg → Option (List Nat))
    (unpack : List Nat → Option Msg) (m : Msg) (p : List Nat)
    (_hpack : pack m = some p) (hunpack : unpack p = some m)
    (hlen : p.length < 10 ^ 16) :
    RCom.decodeMessage unpack [] [RCom.sendMessageBytes p] = some m := by
  have hframe := RCom.receive_frame p [RCom.sendMessageBytes p] (by simp) hlen
  rw [RCom.decodeMessage, hframe.1]
  exact hunpack

/-- Witness for C1: the MessagePack message `{type = 'Hello'}` round-trips
through the frame codec. -/
theorem claim1_frame_roundtrip_witness :
    RCom.decodeMessage MP.mpUnpack [] [RCom.sendMessageBytes MP.mpHelloBytes] =
      some MP.mpHello :=
  claim1_frame_roundtrip MP.mpPack MP.mpUnpack MP.mpHello MP.mpHelloBytes
    (by decide) (by decide) (by decide)

/-- C2 — Header/body correspondence: every frame `M.sendMessage` emits
starts with exactly 16 ASCII decimal digit bytes whose decimal value is the
exact byte length of the payload that follows them (stated for every
payload whose length fits the 16-digit header, which covers 0-length and
larger-than-64KB payloads alike). -/
theorem claim2_header_body (p : List Nat) (h : p.length < 10 ^ 16) :
    ((RCom.sendMessageBytes p).take 16).length = 16 ∧
    (∀ b ∈ (RCom.sendMessageBytes p).take 16, 48 ≤ b ∧ b ≤ 57) ∧
    RCom.headerValue ((RCom.sendMessageBytes p).take 16) = p.length ∧
    (RCom.sendMessageBytes p).drop 16 = p := by
  have htake : (RCom.sendMessageBytes p).take 16 = RCom.headerBytes p.length := by
    rw [RCom.sendMessageBytes, ← RCom.headerBytes_length h, List.take_left]
  have hdrop : (RCom.sendMessageBytes p).drop 16 = p := by
    rw [RCom.sendMessageBytes, ← RCom.headerBytes_length h, List.drop_left]
  rw [htake, hdrop]
  exact ⟨RCom.headerBytes_length h, RCom.headerBytes_digits p.length,
    RCom.headerValue_headerBytes p.length, rfl⟩

/-- Witness for C2: instantiated at the empty payload and at a 70000-byte
payload (larger than 64KB). -/
theorem claim2_header_body_witness :
    ((RCom.sendMessageBytes ([] : List Nat)).take 16).length = 16 ∧
    RCom.headerValue ((RCom.sendMessageBytes ([] : List Nat)).take 16) = 0 ∧
    RCom.headerValue ((RCom.sendMessageBytes (List.replicate 70000 0)).take 16) =
      (List.replicate 70000 (0 : Nat)).length :=
  ⟨(claim2_header_body [] (by norm_num)).1,
   (claim2_header_body [] (by norm_num)).2.2.1,
   (claim2_header_body (List.replicate 70000 0)
      (by rw [List.length_replicate]; norm_num)).2.2.1⟩

/-- C8 — Error message shape: the error replies built by `M.sendBNGError`
and `M.sendBNGValueError` are single-field mappings whose only top-level
key is `bngError` (respectively `bngValueError`) bound to the error text,
and they carry no `type` field. -/
theorem claim8_error_message_shape (text : String) :
    (Wire.bngErrorMsg text).map Prod.fst = ["bngError"] ∧
    (Wire.bngValueErrorMsg text).map Prod.fst = ["bngValueError"] ∧
    Wire.mlookup "bngError" (Wire.bngErrorMsg text) = some (Wire.MsgV.str text) ∧
    Wire.mlookup "bngValueError" (Wire.bngValueErrorMsg text) = some (Wire.MsgV.str text) ∧
    Wire.mlookup "type" (Wire.bngErrorMsg text) = none ∧
    Wire.mlookup "type" (Wire.bngValueErrorMsg text) = none := by
  refine ⟨rfl, rfl, ?_, ?_, ?_, ?_⟩ <;>
    simp [Wire.mlookup, Wire.bngErrorMsg, Wire.bngValueErrorMsg]

/-- C3 (amended) — Chunked-arrival resilience: when every byte of one
well-formed frame arrives within the window of the receiver's read calls —
in whatever chunking, including one byte per read attempt — `M.receive`
returns exactly the payload it returns when all bytes arrive at once. -/
theorem claim3_chunked_receive (payload : List Nat) (chunks : List (List Nat))
    (hjoin : chunks.flatten = RCom.sendMessageBytes payload)
    (hlen : payload.length < 10 ^ 16) :
    (RCom.receive [] chunks).1 = some payload ∧
    (RCom.receive [] chunks).1 = (RCom.receive [] [RCom.sendMessageBytes payload]).1 := by
  have h1 := RCom.receive_frame payload chunks hjoin hlen
  have h2 := RCom.receive_frame payload [RCom.sendMessageBytes payload] (by simp) hlen
  exact ⟨h1.1, by rw [h1.1, h2.1]⟩

/-- Witness for C3: the frame of payload `[65]` delivered one byte per read
attempt is decoded to the same payload as the all-at-once delivery. -/
theorem claim3_chunked_receive_witness :
    (RCom.receive [] ((RCom.sendMessageBytes [65]).map (fun b => [b]))).1 = some [65] :=
  (claim3_chunked_receive [65] ((RCom.sendMessageBytes [65]).map (fun b => [b]))
    (by decide) (by decide)).1

namespace GE

open Wire

theorem handlerFor_send_ok (t : String) (h : Env → Nat → Message → GEState → HandlerResult)
    (hh : handlerFor t = some h) (env : Env) (skt : Nat) (m : Message) (s : GEState)
    (res : GEState × List Effect × Bool) (happ : h env skt m s = some res)
    (k : Nat) (mw : Message) (hmem : Effect.send k mw ∈ res.2.1) : pumpMsgOK mw := by
  unfold handlerFor at hh
  split at hh
  · -- Hello
    injection hh with hh2
    subst hh2
    simp only [handleHello, Option.some.injEq] at happ
    subst happ
    simp only [List.mem_singleton, Effect.send.injEq] at hmem
    exact Or.inl hmem.2
  · -- Quit
    injection hh with hh2
    subst hh2
    simp only [handleQuit, Option.some.injEq] at happ
    subst happ
    simp only [List.mem_singleton, Effect.send.injEq] at hmem
    exact Or.inr (Or.inl hmem.2)
  · -- LoadScenario
    injection hh with hh2
    subst hh2
    unfold handleLoadScenario at happ
    split at happ
    · split at happ
      · injection happ with happ2
        subst happ2
        exact absurd hmem (by simp)
      · injection happ with happ2
        subst happ2
        simp only [List.mem_singleton, Effect.send.injEq] at hmem
        exact Or.inr (Or.inr (Or.inr ⟨_, hmem.2⟩))
    · exact Option.noConfusion happ
  · -- Step
    injection hh with hh2
    subst hh2
    unfold handleStep at happ
    split at happ
    · injection happ with happ2
      subst happ2
      exact absurd hmem (by simp)
    · exact Option.noConfusion happ
  · -- StartVehicleConnection
    injection hh with hh2
    subst hh2
    unfold handleStartVehicleConnection at happ
    split at happ
    · split at happ
      · injection happ with happ2
        subst happ2
        exact absurd hmem (by simp)
      · exact Option.noConfusion happ
    · exact Option.noConfusion happ
  · -- Pause
    injection hh with hh2
    subst hh2
    simp only [handlePause, Option.some.injEq] at happ
    subst happ
    rcases List.mem_cons.mp hmem with h2 | h2
    · exact absurd h2 (by simp)
    · rcases List.mem_cons.mp h2 with h3 | h3
      · injection h3 with hk hmw2
        exact Or.inr (Or.inr (Or.inl hmw2))
      · exact absurd h3 (by simp)
  · -- no handler registered
    exact Option.noConfusion hh

theorem checkItems_send_ok (env : Env) : ∀ (items : List PassItem) (s : GEState)
    (res : GEState × List Effect × Bool), checkItems env items s = some res →
    ∀ (k : Nat) (mw : Message), Effect.send k mw ∈ res.2.1 → pumpMsgOK mw := by
  intro items
  induction items with
  | nil =>
    intro s res h k mw hmem
    simp only [checkItems, Option.some.injEq] at h
    subst h
    simp at hmem
  | cons it rest ih =>
    obtain ⟨skt, om⟩ := it
    intro s res h k mw hmem
    cases om with
    | none =>
      simp only [checkItems] at h
      obtain ⟨r, hr, hres⟩ := Option.map_eq_some'.mp h
      subst hres
      simp only [List.mem_cons] at hmem
      rcases hmem with h1 | h1
      · exact absurd h1 (by simp)
      · exact ih _ _ hr k mw h1
    | some m =>
      cases hlk : mlookup "type" m with
      | none =>
        simp only [checkItems, hlk] at h
        obtain ⟨r, hr, hres⟩ := Option.map_eq_some'.mp h
        subst hres
        simp only [List.mem_cons] at hmem
        rcases hmem with h1 | h1
        · exact absurd h1 (by simp)
        · exact ih _ _ hr k mw h1
      | some tv =>
        cases tv with
        | str t =>
          cases hhf : handlerFor t with
          | none =>
            simp only [checkItems, hlk, hhf] at h
            obtain ⟨r, hr, hres⟩ := Option.map_eq_some'.mp h
            subst hres
            simp only [List.mem_cons] at hmem
            rcases hmem with h1 | h1
            · exact absurd h1 (by simp)
            · exact ih _ _ hr k mw h1
          | some hd =>
            cases happ : hd env skt m s with
            | none =>
              simp only [checkItems, hlk, hhf, happ] at h
              exact Option.noConfusion h
            | some tri =>
              obtain ⟨s', eff, blocked⟩ := tri
              simp only [checkItems, hlk, hhf, happ] at h
              obtain ⟨r, hr, hres⟩ := Option.map_eq_some'.mp h
              subst hres
              simp only [List.mem_append] at hmem
              rcases hmem with h1 | h1
              · exact handlerFor_send_ok t hd hhf env skt m s _ happ k mw h1
              · exact ih _ _ hr k mw h1
        | int n =>
          simp only [checkItems, hlk] at h
          obtain ⟨r, hr, hres⟩ := Option.map_eq_some'.mp h
          subst hres
          simp only [List.mem_cons] at hmem
          rcases hmem with h1 | h1
          · exact absurd h1 (by simp)
          · exact ih _ _ hr k mw h1
        | boolean b =>
          simp only [checkItems, hlk] at h
          exact Option.noConfusion h

theorem pumpLoop_send_ok (env : Env) : ∀ (passes : List (List PassItem)) (s : GEState)
    (res : GEState × List Effect), pumpLoop env passes s = some res →
    ∀ (k : Nat) (mw : Message), Effect.send k mw ∈ res.2 → pumpMsgOK mw := by
  intro passes
  induction passes with
  | nil =>
    intro s res h k mw hmem
    simp only [pumpLoop, Option.some.injEq] at h
    subst h
    simp at hmem
  | cons p rest ih =>
    intro s res h k mw hmem
    cases hcm : checkMessages env p s with
    | none =>
      simp only [pumpLoop, hcm] at h
      exact Option.noConfusion h
    | some tri =>
      obtain ⟨s', eff, cont⟩ := tri
      have hcm' := hcm
      unfold checkMessages at hcm'
      obtain ⟨ri, hri, htri⟩ := Option.map_eq_some'.mp hcm'
      have heff : Effect.send k mw ∈ eff → pumpMsgOK mw := by
        intro hin
        have heq : eff = ri.2.1 := by
          have := congrArg (fun x => x.2.1) htri
          simpa using this.symm
        rw [heq] at hin
        exact checkItems_send_ok env p s ri hri k mw hin
      cases cont with
      | true =>
        simp only [pumpLoop, hcm, if_true] at h
        obtain ⟨r, hr, hres⟩ := Option.map_eq_some'.mp h
        subst hres
        simp only [List.mem_append] at hmem
        rcases hmem with h1 | h1
        · exact heff h1
        · exact ih _ _ hr k mw h1
      | false =>
        simp only [pumpLoop, hcm, Bool.false_eq_true, if_false, Option.some.injEq] at h
        subst h
        exact heff hmem

theorem fireDelay_send_ok (fd : Option FrameDelayFunc) (k : Nat) (mw : Message)
    (hmem : Effect.send k mw ∈ fireDelay fd) :
    mw = ackMsg "RelativeCamSet" ∨ mw = [("type", MsgV.str "SensorData")] := by
  cases fd with
  | none => simp [fireDelay] at hmem
  | some f =>
    cases f with
    | relativeCamSet skt =>
      simp only [fireDelay, List.mem_singleton] at hmem
      rcases hmem with ⟨rfl, rfl⟩
      exact Or.inl rfl
    | cameraInstance skt =>
      simp only [fireDelay, List.mem_singleton] at hmem
      rcases hmem with ⟨rfl, rfl⟩
      exact Or.inr rfl

theorem sendTo_mem {w : Option Nat} {m : Message} {k : Nat} {mw : Message}
    (hmem : Effect.send k mw ∈ sendTo w m) : mw = m ∧ w = some k := by
  cases w with
  | none => simp [sendTo] at hmem
  | some j =>
    simp only [sendTo, List.mem_singleton] at hmem
    rcases hmem with ⟨rfl, rfl⟩
    exact ⟨rfl, rfl⟩

theorem preRenderBlocking_send_ok (env : Env) (s : GEState) (k : Nat) (mw : Message)
    (hmem : Effect.send k mw ∈ (preRenderBlocking env s).2.1) :
    mw = ackMsg "ScenarioStopped" ∨ mw = ackMsg "Stepped" := by
  unfold preRenderBlocking at hmem
  split at hmem
  · simp at hmem
  · split at hmem
    · exact Or.inl (sendTo_mem hmem).1
    · split at hmem
      · split at hmem
        · exact Or.inr (sendTo_mem hmem).1
        · simp at hmem
      · simp at hmem

theorem onPreRender_send_ok (env : Env) (dt : Int) (passes : List (List PassItem))
    (s : GEState) (s' : GEState) (out : List Effect)
    (h : onPreRender env dt passes s = some (s', out)) (k : Nat) (mw : Message)
    (hmem : Effect.send k mw ∈ out) : preRenderMsgOK mw := by
  unfold onPreRender at h
  split at h
  · simp only [Option.some.injEq, Prod.mk.injEq] at h
    rw [← h.2] at hmem
    simp at hmem
  · split at h
    next s1 eff1 heq1 =>
      simp only [Option.some.injEq, Prod.mk.injEq] at h
      rw [← h.2] at hmem
      unfold preRenderDelay at heq1
      split at heq1
      · split at heq1
        · simp only [Prod.mk.injEq] at heq1
          exact absurd heq1.2.2 (by simp)
        · simp only [Prod.mk.injEq] at heq1
          rw [← heq1.2.1] at hmem
          exact absurd hmem (by simp)
      · simp only [Prod.mk.injEq] at heq1
        exact absurd heq1.2.2 (by simp)
    next s1 eff1 heq1 =>
      have heff1 : ∀ hm : Effect.send k mw ∈ eff1, preRenderMsgOK mw := by
        intro hm
        unfold preRenderDelay at heq1
        split at heq1
        · split at heq1
          · simp only [Prod.mk.injEq] at heq1
            rw [← heq1.2.1] at hm
            exact Or.inr (Or.inr (Or.inr (fireDelay_send_ok _ k mw hm)))
          · simp only [Prod.mk.injEq] at heq1
            exact absurd heq1.2.2 (by simp)
        · simp only [Prod.mk.injEq] at heq1
          rw [← heq1.2.1] at hm
          exact absurd hm (by simp)
      split at h
      next s2 eff2 heq2 =>
        simp only [Option.some.injEq, Prod.mk.injEq] at h
        rw [← h.2] at hmem
        simp only [List.mem_append] at hmem
        rcases hmem with hm | hm
        · exact heff1 hm
        · have : Effect.send k mw ∈ (preRenderBlocking env s1).2.1 := by rw [heq2]; exact hm
          rcases preRenderBlocking_send_ok env s1 k mw this with h1 | h1
          · exact Or.inr (Or.inl h1)
          · exact Or.inr (Or.inr (Or.inl h1))
      next s2 eff2 heq2 =>
        have heff2 : ∀ hm : Effect.send k mw ∈ eff2, preRenderMsgOK mw := by
          intro hm
          have : Effect.send k mw ∈ (preRenderBlocking env s1).2.1 := by rw [heq2]; exact hm
          rcases preRenderBlocking_send_ok env s1 k mw this with h1 | h1
          · exact Or.inr (Or.inl h1)
          · exact Or.inr (Or.inr (Or.inl h1))
        split at h
        · simp only [Option.some.injEq, Prod.mk.injEq] at h
          rw [← h.2] at hmem
          simp only [List.mem_append] at hmem
          rcases hmem with hm | hm
          · exact heff1 hm
          · exact heff2 hm
        · split at h
          · exact absurd h (by simp)
          next s4 eff4 heq4 =>
            simp only [Option.some.injEq, Prod.mk.injEq] at h
            rw [← h.2] at hmem
            simp only [List.mem_append] at hmem
            rcases hmem with (hm | hm) | hm
            · exact heff1 hm
            · exact heff2 hm
            · exact Or.inl (pumpLoop_send_ok env passes _ _ heq4 k mw hm)

end GE

namespace GE

open Wire

/-- The state reached by `preRenderDelay` keeps the blocking slot, the step
counter and the quit flag. -/
theorem preRenderDelay_fields (s : GEState) :
    (preRenderDelay s).1.blocking = s.blocking ∧
    (preRenderDelay s).1.waiting = s.waiting ∧
    (preRenderDelay s).1.stepsLeft = s.stepsLeft ∧
    (preRenderDelay s).1.quitRequested = s.quitRequested := by
  unfold preRenderDelay
  split
  · split
    · exact ⟨rfl, rfl, rfl, rfl⟩
    · exact ⟨rfl, rfl, rfl, rfl⟩
  · exact ⟨rfl, rfl, rfl, rfl⟩

/-- `acceptStep` only touches `conSleep` and the client set. -/
theorem acceptStep_fields (env : Env) (dt : Int) (s : GEState) :
    (acceptStep env dt s).blocking = s.blocking ∧
    (acceptStep env dt s).waiting = s.waiting ∧
    (acceptStep env dt s).stepsLeft = s.stepsLeft := by
  unfold acceptStep
  split
  · exact ⟨rfl, rfl, rfl⟩
  · exact ⟨rfl, rfl, rfl⟩

/-- None of the messages `onPreRender` can send is the `MapLoaded` ACK or
the `StartVehicleConnection` reply. -/
theorem preRenderMsgOK_type_ne (m : Message) (h : preRenderMsgOK m) :
    mlookup "type" m ≠ some (MsgV.str "MapLoaded") ∧
    mlookup "type" m ≠ some (MsgV.str "StartVehicleConnection") := by
  rcases h with (h | h | h | ⟨t, h⟩) | h | h | h | h
  · subst h; exact ⟨by decide, by decide⟩
  · subst h; exact ⟨by decide, by decide⟩
  · subst h; exact ⟨by decide, by decide⟩
  · subst h
    constructor <;> simp [mlookup, bngValueErrorMsg]
  · subst h; exact ⟨by decide, by decide⟩
  · subst h; exact ⟨by decide, by decide⟩
  · subst h; exact ⟨by decide, by decide⟩
  · subst h; exact ⟨by decide, by decide⟩

/-- With the blocking slot held and the pending operation not completing in
this frame, `onPreRender` ignores the inbound messages entirely: `receive`
is never called for them (the source returns before the pump). -/
theorem onPreRender_blocked_ignores_inbox (env : Env) (dt : Int) (s : GEState) (r : String)
    (p₁ p₂ : List (List PassItem)) (hb : s.blocking = some r)
    (hrm : r = "returnMainMenu" → env.gamestateEmpty = false)
    (hstep : r = "step" → s.stepsLeft ≠ 1) :
    onPreRender env dt p₁ s = onPreRender env dt p₂ s := by
  unfold onPreRender
  by_cases hq : s.quitRequested = true
  · rw [if_pos hq, if_pos hq]
  · rw [if_neg hq, if_neg hq]
    rcases hpd : preRenderDelay s with ⟨s1, eff1, b1⟩
    have hb1 : s1.blocking = some r := by
      have h2 := (preRenderDelay_fields s).1
      rw [hpd] at h2
      rw [show s1.blocking = s.blocking from h2]
      exact hb
    have hsl1 : s1.stepsLeft = s.stepsLeft := by
      have h2 := (preRenderDelay_fields s).2.2.1
      rw [hpd] at h2
      exact h2
    cases b1 with
    | false => rfl
    | true =>
      have hblock : ∃ s2 eff2, preRenderBlocking env s1 = (s2, eff2, false) := by
        by_cases hr1 : r = "returnMainMenu"
        · have hge := hrm hr1
          have hA : ¬(r = "returnMainMenu" ∧ env.gamestateEmpty = true) := by
            rintro ⟨-, h2⟩
            rw [hge] at h2
            exact absurd h2 (by simp)
          have hB : ¬(r = "step") := by rw [hr1]; decide
          refine ⟨s1, [], ?_⟩
          unfold preRenderBlocking
          simp only [hb1]
          rw [if_neg hA, if_neg hB]
        · by_cases hr2 : r = "step"
          · have hne : s1.stepsLeft ≠ 1 := by rw [hsl1]; exact hstep hr2
            have hA : ¬(r = "returnMainMenu" ∧ env.gamestateEmpty = true) :=
              fun hand => hr1 hand.1
            have hC : ¬(s1.stepsLeft - 1 = 0) := by omega
            refine ⟨{ s1 with stepsLeft := s1.stepsLeft - 1 }, [], ?_⟩
            unfold preRenderBlocking
            simp only [hb1]
            rw [if_neg hA, if_pos hr2, if_neg hC]
          · have hA : ¬(r = "returnMainMenu" ∧ env.gamestateEmpty = true) :=
              fun hand => hr1 hand.1
            refine ⟨s1, [], ?_⟩
            unfold preRenderBlocking
            simp only [hb1]
            rw [if_neg hA, if_neg hr2]
      obtain ⟨s2, eff2, hblk⟩ := hblock
      simp only [hblk]

end GE

namespace GE

open Wire

/-- One `onPreRender` frame while blocked on `step` with more than one step
pending: the counter is decremented, nothing is sent, and the inbound
messages are never touched. -/
theorem onPreRender_step_pending (env : Env) (dt : Int) (passes : List (List PassItem))
    (s : GEState) (hq : s.quitRequested = false) (hf : s.frameDelayTimer ≤ 0)
    (hb : s.blocking = some "step") (hne : s.stepsLeft ≠ 1) :
    onPreRender env dt passes s = some ({ s with stepsLeft := s.stepsLeft - 1 }, []) := by
  have hdelay : preRenderDelay s = (s, [], true) := by
    unfold preRenderDelay
    rw [if_neg (by omega)]
  have hA : ¬(("step" : String) = "returnMainMenu" ∧ env.gamestateEmpty = true) :=
    fun hand => absurd hand.1 (by decide)
  have hblock : preRenderBlocking env s = ({ s with stepsLeft := s.stepsLeft - 1 }, [], false) := by
    unfold preRenderBlocking
    simp only [hb, if_true]
    rw [if_neg hA, if_neg (by omega : ¬(s.stepsLeft - 1 = 0))]
  unfold onPreRender
  rw [if_neg (by simp [hq])]
  simp only [hdelay, hblock, List.nil_append]

/-- One `onPreRender` frame while blocked on `step` with exactly one step
pending: the counter reaches zero, the `Stepped` ACK goes to the waiting
socket, and the slot is cleared at that same point. -/
theorem onPreRender_step_completes (env : Env) (dt : Int) (s : GEState)
    (hq : s.quitRequested = false) (hf : s.frameDelayTimer ≤ 0)
    (hb : s.blocking = some "step") (hone : s.stepsLeft = 1) :
    ∃ s', onPreRender env dt [] s = some (s', sendTo s.waiting (ackMsg "Stepped")) ∧
      s'.blocking = none ∧ s'.waiting = none ∧ s'.stepsLeft = 0 ∧
      s'.quitRequested = false := by
  have hdelay : preRenderDelay s = (s, [], true) := by
    unfold preRenderDelay
    rw [if_neg (by omega)]
  have hA : ¬(("step" : String) = "returnMainMenu" ∧ env.gamestateEmpty = true) :=
    fun hand => absurd hand.1 (by decide)
  have hblock : preRenderBlocking env s =
      (stopBlocking { s with stepsLeft := s.stepsLeft - 1 },
        sendTo s.waiting (ackMsg "Stepped"), true) := by
    unfold preRenderBlocking
    simp only [hb, if_true]
    rw [if_neg hA, if_pos (by omega : s.stepsLeft - 1 = 0)]
  unfold onPreRender
  rw [if_neg (by simp [hq])]
  simp only [hdelay, hblock, List.nil_append]
  by_cases hso : (stopBlocking { s with stepsLeft := s.stepsLeft - 1 }).serverOpen = false
  · rw [if_pos hso]
    refine ⟨stopBlocking { s with stepsLeft := s.stepsLeft - 1 }, rfl, rfl, rfl, ?_, hq⟩
    show s.stepsLeft - 1 = 0
    omega
  · rw [if_neg hso]
    refine ⟨acceptStep env dt (stopBlocking { s with stepsLeft := s.stepsLeft - 1 }),
      ?_, ?_, ?_, ?_, ?_⟩
    · simp [pumpLoop]
    · rw [(acceptStep_fields env dt _).1]; rfl
    · rw [(acceptStep_fields env dt _).2.1]; rfl
    · rw [(acceptStep_fields env dt _).2.2]
      show s.stepsLeft - 1 = 0
      omega
    · unfold acceptStep
      split
      · exact hq
      · exact hq

/-- Iterated frames while blocked on `step`, none of which reaches zero:
only the counter moves, and no message is ever sent. -/
theorem iterPreRender_step_countdown (env : Env) (dt : Int) : ∀ (k : Nat) (s : GEState),
    s.quitRequested = false → s.frameDelayTimer ≤ 0 → s.blocking = some "step" →
    (∀ j : Nat, 1 ≤ j → j ≤ k → s.stepsLeft ≠ (j : Int)) →
    iterPreRender env dt k s = some ({ s with stepsLeft := s.stepsLeft - (k : Int) }, []) := by
  intro k
  induction k with
  | zero =>
    intro s _ _ _ _
    show some (s, []) = _
    norm_num
  | succ k ih =>
    intro s hq hf hb hj
    have hne : s.stepsLeft ≠ 1 := by
      have := hj 1 (by omega) (by omega)
      simpa using this
    have h1 := onPreRender_step_pending env dt [] s hq hf hb hne
    have ih' := ih { s with stepsLeft := s.stepsLeft - 1 } hq hf hb (by
      intro j h1j hjk hcon
      have h2 := hj (j + 1) (by omega) (by omega)
      apply h2
      have hcon' : s.stepsLeft - 1 = (j : Int) := hcon
      push_cast
      omega)
    simp only [iterPreRender, h1, ih', Option.map_some', List.nil_append]
    have harith : s.stepsLeft - 1 - (k : Int) = s.stepsLeft - ((k + 1 : Nat) : Int) := by
      push_cast
      ring
    rw [harith]

/-- Starting a `step` block with a positive count `N` and iterating
`onPreRender` exactly `N` times consumes the count and delivers the
`Stepped` ACK at the `N`-th frame, clearing the slot. -/
theorem iterPreRender_step_run (env : Env) (dt : Int) : ∀ (N : Nat) (s : GEState),
    1 ≤ N → s.quitRequested = false → s.frameDelayTimer ≤ 0 →
    s.blocking = some "step" → s.stepsLeft = (N : Int) →
    ∃ s', iterPreRender env dt N s = some (s', sendTo s.waiting (ackMsg "Stepped")) ∧
      s'.blocking = none ∧ s'.waiting = none ∧ s'.stepsLeft = 0 := by
  intro N
  induction N with
  | zero => intro s h; omega
  | succ N ih =>
    intro s hN hq hf hb hsl
    by_cases hN0 : N = 0
    · subst hN0
      obtain ⟨s', h1, hp1, hp2, hp3, _⟩ :=
        onPreRender_step_completes env dt s hq hf hb (by rw [hsl]; norm_num)
      refine ⟨s', ?_, hp1, hp2, hp3⟩
      simp [iterPreRender, h1]
    · have hge : 1 ≤ N := by omega
      have hne : s.stepsLeft ≠ 1 := by rw [hsl]; omega
      have h1 := onPreRender_step_pending env dt [] s hq hf hb hne
      obtain ⟨s'', h2, hp⟩ := ih { s with stepsLeft := s.stepsLeft - 1 } hge hq hf hb (by
        show s.stepsLeft - 1 = (N : Int)
        rw [hsl]
        push_cast
        ring)
      refine ⟨s'', ?_, hp⟩
      simp only [iterPreRender, h1, h2, Option.map_some', List.nil_append]

end GE

/-- C4 — Blocking scenario load: when the scenario path is found,
`handleLoadScenario` sends nothing at command-receipt time (it only logs
and occupies the blocking slot with reason `loadScenario`), and in the
whole modelled step relation the `MapLoaded` ACK is emitted only by the
`onScenarioUIReady` hook firing with state `start` while the blocking
reason is `loadScenario`, going to the waiting socket and clearing the
slot. -/
theorem claim4_map_loaded_only_on_ui_ready :
    (∀ (env : GE.Env) (skt : Nat) (m : Wire.Message) (s : GE.GEState) (p : String),
      Wire.mlookup "path" m = some (Wire.MsgV.str p) → env.scenarioExists p = true →
      GE.handleLoadScenario env skt m s =
        some (GE.block "loadScenario" skt s, [GE.Effect.log "loading scenario"], true)) ∧
    (∀ (env : GE.Env) (s : GE.GEState) (e : GE.GEEvent) (s' : GE.GEState)
      (out : List GE.Effect) (k : Nat) (mw : Wire.Message),
      GE.geStep env s e = some (s', out) → GE.Effect.send k mw ∈ out →
      Wire.mlookup "type" mw = some (Wire.MsgV.str "MapLoaded") →
      e = GE.GEEvent.scenarioUIReady "start" ∧ s.blocking = some "loadScenario" ∧
        s.waiting = some k ∧ s'.blocking = none) := by
  constructor
  · intro env skt m s p hpath hex
    simp [GE.handleLoadScenario, hpath, hex]
  · intro env s e s' out k mw hstep hmem hlook
    cases e with
    | preRender dt passes =>
      have hok := GE.onPreRender_send_ok env dt passes s s' out hstep k mw hmem
      exact absurd hlook (GE.preRenderMsgOK_type_ne mw hok).1
    | scenarioUIReady st =>
      simp only [GE.geStep, Option.some.injEq] at hstep
      unfold GE.onScenarioUIReady at hstep
      split at hstep
      next hcond =>
        simp only [Prod.mk.injEq] at hstep
        rw [← hstep.2] at hmem
        have hm := GE.sendTo_mem hmem
        refine ⟨by rw [hcond.1], hcond.2, hm.2, ?_⟩
        rw [← hstep.1]
        rfl
      next =>
        simp only [Prod.mk.injEq] at hstep
        rw [← hstep.2] at hmem
        exact absurd hmem (by simp)
    | countdownEnded =>
      simp only [GE.geStep, Option.some.injEq] at hstep
      unfold GE.onCountdownEnded at hstep
      split at hstep
      · simp only [Prod.mk.injEq] at hstep
        rw [← hstep.2] at hmem
        have hm := GE.sendTo_mem hmem
        rw [hm.1] at hlook
        exact absurd hlook (by decide)
      · simp only [Prod.mk.injEq] at hstep
        rw [← hstep.2] at hmem
        exact absurd hmem (by simp)
    | vehicleConnectionReady vehID prt =>
      simp only [GE.geStep, Option.some.injEq] at hstep
      unfold GE.onVehicleConnectionReady at hstep
      split at hstep
      · simp only [Prod.mk.injEq] at hstep
        rw [← hstep.2] at hmem
        have hm := GE.sendTo_mem hmem
        rw [hm.1] at hlook
        simp [Wire.mlookup, GE.svcMsg] at hlook
      · simp only [Prod.mk.injEq] at hstep
        rw [← hstep.2] at hmem
        exact absurd hmem (by simp)

/-- Witness for C4: a found `LoadScenario` request answers nothing and
blocks; the UI-ready hook in state `start` then resolves the wait. -/
theorem claim4_witness :
    GE.handleLoadScenario env0 1 loadMsg ge0 =
      some (GE.block "loadScenario" 1 ge0, [GE.Effect.log "loading scenario"], true) ∧
    (GE.GEEvent.scenarioUIReady "start" = GE.GEEvent.scenarioUIReady "start" ∧
      sLoadBlocked.blocking = some "loadScenario" ∧ sLoadBlocked.waiting = some 1 ∧
      (GE.stopBlocking sLoadBlocked).blocking = none) :=
  ⟨claim4_map_loaded_only_on_ui_ready.1 env0 1 loadMsg ge0 "levels/west/scenarios/test.json"
      (by decide) (by decide),
   claim4_map_loaded_only_on_ui_ready.2 env0 sLoadBlocked
      (GE.GEEvent.scenarioUIReady "start") (GE.stopBlocking sLoadBlocked)
      [GE.Effect.send 1 (Wire.ackMsg "MapLoaded")] 1 (Wire.ackMsg "MapLoaded")
      (by decide) (by decide) (by decide)⟩

/-- C7 — Vehicle multiplexing handshake: `handleStartVehicleConnection`
sends nothing itself — it queues the vehicle-side extension load and
`researchVE.startConnection()` and occupies the blocking slot with reason
`vehicleConnection`; the vehicle-side `startConnection` opens its listening
socket on an OS-assigned port and reports exactly that port through the
`onVehicleConnectionReady` hook; and the only event emitting a message of
type `StartVehicleConnection` is that hook firing while the blocking reason
is `vehicleConnection`, the reply `{type, vid = vehicle name, result =
port}` going to the waiting socket, which clears the slot. -/
theorem claim7_vehicle_connection_handshake :
    (∀ (env : GE.Env) (skt : Nat) (m : Wire.Message) (s : GE.GEState) (v : String),
      Wire.mlookup "vid" m = some (Wire.MsgV.str v) → env.vehicleExists v = true →
      GE.handleStartVehicleConnection env skt m s =
        some (GE.block "vehicleConnection" skt s,
          [GE.Effect.queueLua v "extensions.load('researchVE')",
           GE.Effect.queueLua v "researchVE.startConnection()"], true)) ∧
    (∀ (venv : VE.VEEnv) (st : VE.VEState), ∃ p : Nat,
      (VE.startConnection venv st).1.serverPort = some p ∧
      (VE.startConnection venv st).2 =
        [VE.VEEffect.hookVehicleConnectionReady venv.objID p]) ∧
    (∀ (env : GE.Env) (s : GE.GEState) (e : GE.GEEvent) (s' : GE.GEState)
      (out : List GE.Effect) (k : Nat) (mw : Wire.Message),
      GE.geStep env s e = some (s', out) → GE.Effect.send k mw ∈ out →
      Wire.mlookup "type" mw = some (Wire.MsgV.str "StartVehicleConnection") →
      ∃ vehID prt, e = GE.GEEvent.vehicleConnectionReady vehID prt ∧
        s.blocking = some "vehicleConnection" ∧ s.waiting = some k ∧
        mw = GE.svcMsg (GE.resolveVehicleName env vehID) prt ∧ s'.blocking = none) := by
  refine ⟨?_, ?_, ?_⟩
  · intro env skt m s v hvid hex
    simp [GE.handleStartVehicleConnection, hvid, hex]
  · intro venv st
    cases hsp : st.serverPort with
    | none => exact ⟨venv.osPort, by simp [VE.startConnection, hsp]⟩
    | some p => exact ⟨p, by simp [VE.startConnection, hsp]⟩
  · intro env s e s' out k mw hstep hmem hlook
    cases e with
    | preRender dt passes =>
      have hok := GE.onPreRender_send_ok env dt passes s s' out hstep k mw hmem
      exact absurd hlook (GE.preRenderMsgOK_type_ne mw hok).2
    | scenarioUIReady st =>
      simp only [GE.geStep, Option.some.injEq] at hstep
      unfold GE.onScenarioUIReady at hstep
      split at hstep
      · simp only [Prod.mk.injEq] at hstep
        rw [← hstep.2] at hmem
        have hm := GE.sendTo_mem hmem
        rw [hm.1] at hlook
        exact absurd hlook (by decide)
      · simp only [Prod.mk.injEq] at hstep
        rw [← hstep.2] at hmem
        exact absurd hmem (by simp)
    | countdownEnded =>
      simp only [GE.geStep, Option.some.injEq] at hstep
      unfold GE.onCountdownEnded at hstep
      split at hstep
      · simp only [Prod.mk.injEq] at hstep
        rw [← hstep.2] at hmem
        have hm := GE.sendTo_mem hmem
        rw [hm.1] at hlook
        exact absurd hlook (by decide)
      · simp only [Prod.mk.injEq] at hstep
        rw [← hstep.2] at hmem
        exact absurd hmem (by simp)
    | vehicleConnectionReady vehID prt =>
      simp only [GE.geStep, Option.some.injEq] at hstep
      unfold GE.onVehicleConnectionReady at hstep
      split at hstep
      next hcond =>
        simp only [Prod.mk.injEq] at hstep
        rw [← hstep.2] at hmem
        have hm := GE.sendTo_mem hmem
        refine ⟨vehID, prt, rfl, hcond, hm.2, hm.1, ?_⟩
        rw [← hstep.1]
        rfl
      next =>
        simp only [Prod.mk.injEq] at hstep
        rw [← hstep.2] at hmem
        exact absurd hmem (by simp)

/-- Witness for C7: a `StartVehicleConnection` request for an existing
vehicle blocks without replying; a fresh vehicle-side `startConnection`
reports its assigned port 54321; the hook then answers the waiting socket
with that port and the vehicle name. -/
theorem claim7_witness :
    GE.handleStartVehicleConnection env0 1
        [("type", Wire.MsgV.str "StartVehicleConnection"), ("vid", Wire.MsgV.str "ego")] ge0 =
      some (GE.block "vehicleConnection" 1 ge0,
        [GE.Effect.queueLua "ego" "extensions.load('researchVE')",
         GE.Effect.queueLua "ego" "researchVE.startConnection()"], true) ∧
    (∃ p : Nat, (VE.startConnection ⟨42, 54321⟩ ⟨none⟩).1.serverPort = some p ∧
      (VE.startConnection ⟨42, 54321⟩ ⟨none⟩).2 =
        [VE.VEEffect.hookVehicleConnectionReady 42 p]) ∧
    (∃ vehID prt, GE.GEEvent.vehicleConnectionReady 42 54321 =
        GE.GEEvent.vehicleConnectionReady vehID prt ∧
      sVehBlocked.blocking = some "vehicleConnection" ∧ sVehBlocked.waiting = some 1 ∧
      GE.svcMsg "ego" 54321 = GE.svcMsg (GE.resolveVehicleName env0 vehID) prt ∧
      (GE.stopBlocking sVehBlocked).blocking = none) :=
  ⟨claim7_vehicle_connection_handshake.1 env0 1
      [("type", Wire.MsgV.str "StartVehicleConnection"), ("vid", Wire.MsgV.str "ego")] ge0
      "ego" (by decide) (by decide),
   claim7_vehicle_connection_handshake.2.1 ⟨42, 54321⟩ ⟨none⟩,
   by
    obtain ⟨vehID, prt, h1, h2, h3, h4, h5⟩ :=
      claim7_vehicle_connection_handshake.2.2 env0 sVehBlocked
        (GE.GEEvent.vehicleConnectionReady 42 54321) (GE.stopBlocking sVehBlocked)
        [GE.Effect.send 1 (GE.svcMsg "ego" 54321)] 1 (GE.svcMsg "ego" 54321)
        (by decide) (by decide) (by decide)
    exact ⟨vehID, prt, h1.symm ▸ rfl, h2, h3, h4 ▸ rfl, h5⟩⟩

/-- C9 — Unmatched messages never abort the read loop: inside one
`checkMessages` pass, a decoded message without a `type` field only adds a
log line and the remaining sockets are processed exactly as before, and a
message whose type has no registered handler only adds the
`onSocketMessage` extension-hook call, again continuing with the remaining
sockets; neither case changes the state or makes the pass fail. -/
theorem claim9_unmatched_messages_skipped :
    (∀ (env : GE.Env) (skt : Nat) (m : Wire.Message) (rest : List GE.PassItem)
      (s s2 : GE.GEState) (eff : List GE.Effect) (r : Bool),
      Wire.mlookup "type" m = none →
      GE.checkItems env rest s = some (s2, eff, r) →
      GE.checkItems env ((skt, some m) :: rest) s =
        some (s2, GE.Effect.log "message without type" :: eff, r)) ∧
    (∀ (env : GE.Env) (skt : Nat) (m : Wire.Message) (rest : List GE.PassItem)
      (s s2 : GE.GEState) (eff : List GE.Effect) (r : Bool) (t : String),
      Wire.mlookup "type" m = some (Wire.MsgV.str t) → GE.handlerFor t = none →
      GE.checkItems env rest s = some (s2, eff, r) →
      GE.checkItems env ((skt, some m) :: rest) s =
        some (s2, GE.Effect.hookSocketMessage skt m :: eff, r)) := by
  constructor
  · intro env skt m rest s s2 eff r hlk hrest
    simp [GE.checkItems, hlk, hrest]
  · intro env skt m rest s s2 eff r t hlk hhf hrest
    simp [GE.checkItems, hlk, hhf, hrest]

/-- Witness for C9: a typeless message and a message of unregistered type
`Bogus` are both skipped while the following socket's `Hello` is still
handled. -/
theorem claim9_witness :
    GE.checkItems env0 [(1, some [("foo", Wire.MsgV.int 7)]), (2, some helloMsg)] ge0 =
      some (ge0, GE.Effect.log "message without type" ::
        [GE.Effect.send 2 [("type", Wire.MsgV.str "Hello"),
          ("protocolVersion", Wire.MsgV.str "v1.19")]], true) ∧
    GE.checkItems env0 [(1, some [("type", Wire.MsgV.str "Bogus")]), (2, some helloMsg)] ge0 =
      some (ge0, GE.Effect.hookSocketMessage 1 [("type", Wire.MsgV.str "Bogus")] ::
        [GE.Effect.send 2 [("type", Wire.MsgV.str "Hello"),
          ("protocolVersion", Wire.MsgV.str "v1.19")]], true) :=
  ⟨claim9_unmatched_messages_skipped.1 env0 1 [("foo", Wire.MsgV.int 7)]
      [(2, some helloMsg)] ge0 ge0
      [GE.Effect.send 2 [("type", Wire.MsgV.str "Hello"),
        ("protocolVersion", Wire.MsgV.str "v1.19")]] true (by decide) (by decide),
   claim9_unmatched_messages_skipped.2 env0 1 [("type", Wire.MsgV.str "Bogus")]
      [(2, some helloMsg)] ge0 ge0
      [GE.Effect.send 2 [("type", Wire.MsgV.str "Hello"),
        ("protocolVersion", Wire.MsgV.str "v1.19")]] true "Bogus" (by decide) rfl
      (by decide)⟩

/-- C5 — Step completion: `handleStep` with count `N ≥ 1` stores the count,
blocks with reason `step` and starts the physics steps without replying;
each of the first `N - 1` subsequent `onPreRender` frames only decrements
the counter and sends nothing; and the `N`-th frame — the one whose
decrement reaches zero — sends the `Stepped` ACK to the requesting socket
and clears the blocking slot at that same point. -/
theorem claim5_step_completion (env : GE.Env) (dt : Int) (skt : Nat) (m : Wire.Message)
    (s : GE.GEState) (N : Nat) (hN : 1 ≤ N)
    (hcount : Wire.mlookup "count" m = some (Wire.MsgV.int (N : Int)))
    (hq : s.quitRequested = false) (hf : s.frameDelayTimer ≤ 0) :
    GE.handleStep env skt m s =
      some (GE.block "step" skt { s with stepsLeft := (N : Int) },
        [GE.Effect.physicsStep (N : Int)], true) ∧
    (∀ k : Nat, 1 ≤ k → k < N →
      GE.iterPreRender env dt k (GE.block "step" skt { s with stepsLeft := (N : Int) }) =
        some ({ GE.block "step" skt s with stepsLeft := (N : Int) - (k : Int) }, [])) ∧
    (∃ s', GE.iterPreRender env dt N (GE.block "step" skt { s with stepsLeft := (N : Int) }) =
        some (s', [GE.Effect.send skt (Wire.ackMsg "Stepped")]) ∧
      s'.blocking = none ∧ s'.waiting = none ∧ s'.stepsLeft = 0) := by
  refine ⟨?_, ?_, ?_⟩
  · simp [GE.handleStep, hcount]
  · intro k hk1 hkN
    have h := GE.iterPreRender_step_countdown env dt k
      (GE.block "step" skt { s with stepsLeft := (N : Int) }) hq hf rfl (by
        intro j hj1 hjk
        intro hcon
        have h2 : (N : Int) = (j : Int) := hcon
        have h3 : N = j := by exact_mod_cast h2
        omega)
    rw [h]
    rfl
  · obtain ⟨s', h1, hp⟩ := GE.iterPreRender_step_run env dt N
      (GE.block "step" skt { s with stepsLeft := (N : Int) }) hN hq hf rfl rfl
    exact ⟨s', h1, hp⟩

/-- Witness for C5: a `Step` request with count 3 blocks, stays silent for
two frames, and the third frame delivers the `Stepped` ACK. -/
theorem claim5_witness :
    GE.handleStep env0 1 stepMsg3 ge0 =
      some (GE.block "step" 1 { ge0 with stepsLeft := (3 : Int) },
        [GE.Effect.physicsStep (3 : Int)], true) ∧
    GE.iterPreRender env0 1 2 (GE.block "step" 1 { ge0 with stepsLeft := (3 : Int) }) =
      some ({ GE.block "step" 1 ge0 with stepsLeft := (3 : Int) - (2 : Int) }, []) ∧
    (∃ s', GE.iterPreRender env0 1 3 (GE.block "step" 1 { ge0 with stepsLeft := (3 : Int) }) =
        some (s', [GE.Effect.send 1 (Wire.ackMsg "Stepped")]) ∧
      s'.blocking = none ∧ s'.waiting = none ∧ s'.stepsLeft = 0) := by
  have h := claim5_step_completion env0 1 1 stepMsg3 ge0 3 (by norm_num) (by decide)
    (by decide) (by decide)
  exact ⟨h.1, by have := h.2.1 2 (by norm_num) (by norm_num); exact_mod_cast this, h.2.2⟩

/-- C10 — Non-positive step counts block forever: `handleStep` with
count `c ≤ 0` still occupies the blocking slot with reason `step`, but
every subsequent `onPreRender` frame decrements the counter past zero
without ever satisfying the equality test, so no `Stepped` ACK (indeed no
message at all) is ever sent and the slot stays occupied at every later
frame. -/
theorem claim10_nonpositive_step_never_acks (env : GE.Env) (dt : Int) (skt : Nat)
    (m : Wire.Message) (s : GE.GEState) (c : Int)
    (hcount : Wire.mlookup "count" m = some (Wire.MsgV.int c)) (hc : c ≤ 0)
    (hq : s.quitRequested = false) (hf : s.frameDelayTimer ≤ 0) :
    GE.handleStep env skt m s =
      some (GE.block "step" skt { s with stepsLeft := c }, [GE.Effect.physicsStep c], true) ∧
    (∀ k : Nat,
      GE.iterPreRender env dt k (GE.block "step" skt { s with stepsLeft := c }) =
        some ({ GE.block "step" skt s with stepsLeft := c - (k : Int) }, []) ∧
      ({ GE.block "step" skt s with stepsLeft := c - (k : Int) } : GE.GEState).blocking =
        some "step" ∧
      c - (k : Int) ≠ 0 ∨ k = 0) := by
  constructor
  · simp [GE.handleStep, hcount]
  · intro k
    have h := GE.iterPreRender_step_countdown env dt k
      (GE.block "step" skt { s with stepsLeft := c }) hq hf rfl (by
        intro j hj1 hjk
        show c ≠ (j : Int)
        omega)
    by_cases hk0 : k = 0
    · exact Or.inr hk0
    · refine Or.inl ⟨by rw [h]; rfl, rfl, by omega⟩

/-- Witness for C10: a `Step` request with count 0 leaves the connection
blocked with no ACK after five frames (counter at `-5`). -/
theorem claim10_witness :
    GE.handleStep env0 1 stepMsg0 ge0 =
      some (GE.block "step" 1 { ge0 with stepsLeft := (0 : Int) },
        [GE.Effect.physicsStep (0 : Int)], true) ∧
    (GE.iterPreRender env0 1 5 (GE.block "step" 1 { ge0 with stepsLeft := (0 : Int) }) =
        some ({ GE.block "step" 1 ge0 with stepsLeft := (0 : Int) - (5 : Int) }, []) ∧
      ({ GE.block "step" 1 ge0 with stepsLeft := (0 : Int) - (5 : Int) } : GE.GEState).blocking =
        some "step" ∧
      (0 : Int) - (5 : Int) ≠ 0 ∨ (5 : Nat) = 0) := by
  have h := claim10_nonpositive_step_never_acks env0 1 1 stepMsg0 ge0 0 (by decide)
    (by norm_num) (by decide) (by decide)
  exact ⟨h.1, by have := h.2 5; exact_mod_cast this⟩

/-- C6 (amended) — Single blocking slot gates the pump across frames:
whenever the global blocking reason is non-nil and the pending operation
is not completing in this very frame, `onPreRender` returns before pumping
client messages — the whole inbound queue is ignored, so no message
handler (and hence no second blocking command) runs in later frames until
the pending operation's completion event clears the slot.  (Within a
single `checkMessages` pass, handlers of other already-readable sockets do
still run after an earlier handler in the same pass occupied the slot —
see the counterexample.) -/
theorem claim6_blocking_slot_gates_pump (env : GE.Env) (dt : Int) (s : GE.GEState)
    (r : String) (p₁ p₂ : List (List GE.PassItem)) (hb : s.blocking = some r)
    (hrm : r = "returnMainMenu" → env.gamestateEmpty = false)
    (hstep : r = "step" → s.stepsLeft ≠ 1) :
    GE.onPreRender env dt p₁ s = GE.onPreRender env dt p₂ s :=
  GE.onPreRender_blocked_ignores_inbox env dt s r p₁ p₂ hb hrm hstep

/-- Witness for C6: a state blocked on `loadScenario` treats a frame with
a pending `Step` request exactly like a frame with no inbound traffic. -/
theorem claim6_witness :
    GE.onPreRender env0 1 [[(2, some stepMsg)]] sLoadBlocked =
      GE.onPreRender env0 1 [] sLoadBlocked :=
  claim6_blocking_slot_gates_pump env0 1 sLoadBlocked "loadScenario" [[(2, some stepMsg)]] []
    (by decide) (by decide) (by decide)

/-- Counterexample for C6 as stated: in one `checkMessages` pass with two
readable sockets, the `LoadScenario` handler for socket 1 occupies the
blocking slot, yet the `Step` handler for socket 2 still runs in the same
pass and silently overwrites the slot — the first caller's wait
(`waiting = 1`, reason `loadScenario`) is replaced by (`waiting = 2`,
reason `step`) with no message sent to socket 1. -/
theorem claim6_counterexample :
    GE.checkItems env0 [(1, some loadMsg)] ge0 =
      some ({ ge0 with blocking := some "loadScenario", waiting := some 1 },
        [GE.Effect.log "loading scenario"], false) ∧
    GE.checkItems env0 [(1, some loadMsg), (2, some stepMsg)] ge0 =
      some ({ ge0 with blocking := some "step", waiting := some 2, stepsLeft := 5 },
        [GE.Effect.log "loading scenario", GE.Effect.physicsStep 5], false) := by
  constructor
  · decide
  · decide

/-- Counterexample for C3 as stated: when only the first byte of a
well-formed frame (here the frame of payload `[65]`, whose first byte is
the ASCII zero `48`) arrives within the receive window, `M.receive`
returns an error, the already-arrived byte is discarded, and
`checkMessages` removes the client from the set — an incomplete frame is
treated as an error, loses data and drops the client. -/
theorem claim3_counterexample :
    (RCom.sendMessageBytes [65]).take 1 = [48] ∧
    RCom.receive [] [[48]] = (none, [], []) ∧
    GE.checkItems env0 [(7, none)] { ge0 with clients := [7] } =
      some ({ ge0 with clients := [] }, [GE.Effect.log "socket read error"], true) := by
  refine ⟨by decide, by decide, by decide⟩
